import Mathlib

/-!
A shallow embedding of `src/utils.ts` of the TestGPT repository, with theorems
checking the specification's claims about it.

Modelling conventions: JavaScript strings are Lean `String`; an optional value
(`undefined` possible) is `Option`; code that may throw takes an `Except`-valued
oracle for the throwing primitive; the observable side effects of a run
(console logs, the API call, attempted file writes, process exit) are an
explicit trace of events returned by the embedded function.
-/

namespace TestGPT

/-- Modelled from the spec: the chat-message role enum `ERole` of `src/types`
(that file is not under `src/`); its three members are used by `utils.ts` as
`ERole.System`, `ERole.User` and `ERole.Assistant`. -/
inductive ERole where
  | System
  | User
  | Assistant
deriving DecidableEq, Repr

/-- Modelled from the spec: a chat message (role, content) — `IMessage` of `src/types`. -/
structure IMessage where
  role : ERole
  content : String
deriving DecidableEq, Repr

/-- Modelled from the spec: a few-shot example pair (file name, source code,
expected test code) — `IExample` of `src/types`. -/
structure IExample where
  fileName : String
  code : String
  tests : String
deriving DecidableEq, Repr

/-- Modelled from the spec: the argument record of `getPrompt` —
`iGetPromptArgs` of `src/types`; `techs` and `tips` are optional. -/
structure iGetPromptArgs where
  content : String
  fileName : String
  techs : Option (List String)
  tips : Option (List String)
deriving DecidableEq, Repr

/-- `IModel` (utils.ts line 128): union of three model-identifier literals. -/
inductive IModel where
  | gpt35turbo
  | gpt35turbo0301
  | gpt4
deriving DecidableEq, Repr

/-- `ICompletionRequest` (utils.ts line 140): the fields the code constructs;
`stream` is left undefined by `getCompletionRequest` and set by
`streamTestContent` only. -/
structure ICompletionRequest where
  model : IModel
  messages : List IMessage
  stream : Option Bool
deriving DecidableEq, Repr

/-- `pre` is an initial run of the character list. -/
def charsBegin : List Char → List Char → Bool
  | [], _ => true
  | _ :: _, [] => false
  | p :: ps, c :: cs => p = c && charsBegin ps cs

/-- JavaScript `s.startsWith(pre)`, over the character lists so that it
evaluates by kernel reduction. -/
def jsStartsWith (s pre : String) : Bool :=
  charsBegin pre.data s.data

/-- JavaScript `s.split(sep)` for a one-character separator, over the
character list: split at every occurrence, keeping empty pieces; one more
piece than separator occurrences. -/
def jsSplitChars (sep : Char) : List Char → List (List Char)
  | [] => [[]]
  | c :: cs =>
    if c = sep then [] :: jsSplitChars sep cs
    else
      match jsSplitChars sep cs with
      | [] => [[c]]
      | p :: ps => (c :: p) :: ps

/-- JavaScript `s.split(sep)` for a one-character separator (both call sites
in `utils.ts` split on a newline). -/
def jsSplit (s : String) (sep : Char) : List String :=
  (jsSplitChars sep s.data).map (fun l => { data := l })

/-- JavaScript `s.trim()`: remove leading and trailing whitespace. -/
def jsTrim (s : String) : String :=
  { data := ((s.data.dropWhile Char.isWhitespace).reverse.dropWhile
      Char.isWhitespace).reverse }

/-- The numbered lines built by `toList` (utils.ts lines 56-57) before joining:
entry number `index + 1` followed by `". "` and the entry. -/
def numberedLines (arr : List String) : List String :=
  arr.enum.map (fun p => toString (p.1 + 1) ++ ". " ++ p.2)

/-- `toList` (utils.ts lines 56-57): number the entries from 1, join with CRLF. -/
def toList (arr : List String) : String :=
  String.intercalate "\r\n" (numberedLines arr)

/-- The technologies section of the prompt (utils.ts lines 67-71); empty when
`techs` is absent or empty, matching the `techs?.length` truthiness test
(appending nothing is appending the empty string). -/
def techsPart (techs : Option (List String)) : String :=
  match techs with
  | some ts =>
    if ts.length != 0 then
      " using the following technologies: \n      " ++ toList ts ++ "\n    "
    else ""
  | none => ""

/-- The tips section of the prompt (utils.ts lines 73-77); empty when `tips` is
absent or empty, matching the `tips?.length` truthiness test. -/
def tipsPart (tips : Option (List String)) : String :=
  match tips with
  | some ts =>
    if ts.length != 0 then
      "Here are some tips: \n      " ++ toList ts ++ "\n    "
    else ""
  | none => ""

/-- The fixed instruction sentence (utils.ts lines 79-80). -/
def instructionPart : String :=
  "Your answer should be only the code block. Start your response with ``` directly and end it with ``` only, don\x27t add any more text."

/-- The trailing file-content section (utils.ts lines 82-86): the template
literal keeps the source indentation, so the fence lines carry four leading
spaces, the content line is indented by four spaces, and two spaces follow the
final newline. -/
def filePart (content : String) : String :=
  "Here is the file content: \n    ```\n    " ++ content ++ "\n    ```\n  "

/-- `getPrompt` (utils.ts lines 59-89): the successive `prompt +=` steps,
written as one concatenation. -/
def getPrompt (args : iGetPromptArgs) : String :=
  "I need unit tests for a file called " ++ args.fileName
    ++ techsPart args.techs
    ++ tipsPart args.tips
    ++ instructionPart
    ++ filePart args.content

/-- `getExampleMessages` (utils.ts lines 91-121): absent examples give `[]`;
otherwise each example yields a User message with the prompt rebuilt from its
code and file name (spread keeps the caller's techs and tips) followed by an
Assistant message with its tests, flattened in order. -/
def getExampleMessages (promptArgs : iGetPromptArgs)
    (examples : Option (List IExample)) : List IMessage :=
  match examples with
  | none => []
  | some es =>
    (es.map (fun g =>
      [ { role := ERole.User,
          content := getPrompt { promptArgs with content := g.code, fileName := g.fileName } },
        { role := ERole.Assistant, content := g.tests } ])).flatten

/-- The fixed system message (utils.ts lines 150-154). -/
def systemMessage : IMessage :=
  { role := ERole.System,
    content := "You are an assistant that provides unit tests for a given file." }

/-- `getCompletionRequest` (utils.ts lines 142-162): system message, then the
example messages spread in order, then the user message with the prompt. -/
def getCompletionRequest (model : IModel) (prompt : String)
    (examples : List IMessage) : ICompletionRequest :=
  { model := model,
    messages := systemMessage :: (examples ++ [{ role := ERole.User, content := prompt }]),
    stream := none }

/-- One line of the regex replace of `getTestContent` (utils.ts line 171): a
line matching `^```.*$` is replaced by the empty string, others are untouched. -/
def stripFenceLine (l : String) : String :=
  if jsStartsWith l "```" then "" else l

/-- `content.replace(/^```.*$/gm, "")` (utils.ts lines 170-172): every line
starting with a triple backtick is blanked; the newlines, and so the line
structure, are kept. -/
def stripFences (content : String) : String :=
  String.intercalate "\n" ((jsSplit content '\n').map stripFenceLine)

/-- `getTestContent` (utils.ts lines 164-173): `apiContent` is
`response.data.choices[0].message.content`, `none` when that field is undefined
(the source uses optional chaining, so the result is then undefined too). -/
def getTestContent (apiContent : Option String) : Option String :=
  apiContent.map stripFences

/-- The per-chunk line filter of `streamTestContent` (utils.ts lines 190-194):
split the chunk on newlines, keep lines whose trimmed text starts with
`"data: "`. -/
def dataLines (chunk : String) : List String :=
  (jsSplit chunk '\n').filter (fun l => jsStartsWith (jsTrim l) "data: ")

/-- `line.replace(/^data: /, "")` (utils.ts line 197): remove a leading
`"data: "` when the untrimmed line starts with it (unlike the filter, which
trims first). -/
def stripData (l : String) : String :=
  if jsStartsWith l "data: " then { data := l.data.drop 6 } else l

/-- How the streamed loop of `streamTestContent` ends. -/
inductive StreamOutcome where
  | done
  | ended
  | error
deriving DecidableEq, Repr

/-- The nested loops of `streamTestContent` (utils.ts lines 190-210) over the
flattened list of kept lines; `parse` is the `JSON.parse` oracle yielding
`json.choices[0].delta.content` (`none` when that field is absent) or a parse
exception, which the source does not catch. Returns the tokens passed to
`onToken`, in call order (`if (token)` is true exactly for a non-empty string),
and how the loop ended: at a `"[DONE]"` message, at the end of the chunks, or
by a propagating parse exception. -/
def streamLoop (parse : String → Except Unit (Option String)) :
    List String → List String × StreamOutcome
  | [] => ([], StreamOutcome.ended)
  | line :: rest =>
    let message := stripData line
    if message = "[DONE]" then ([], StreamOutcome.done)
    else
      match parse message with
      | Except.error _ => ([], StreamOutcome.error)
      | Except.ok token =>
        let res := streamLoop parse rest
        match token with
        | some t => if t = "" then res else (t :: res.1, res.2)
        | none => res

/-- `streamTestContent` (utils.ts lines 175-211). Running the inner loop over
each chunk's kept lines one chunk after another is running `streamLoop` over
the flattened line list, since nothing happens between chunks. -/
def streamTestContent (parse : String → Except Unit (Option String))
    (chunks : List String) : List String × StreamOutcome :=
  streamLoop parse (chunks.flatMap dataLines)

/-- The open flag of `fs.writeFileSync` as chosen by `writeToFile`
(utils.ts line 25). -/
inductive WriteFlag where
  | w
  | a
deriving DecidableEq, Repr

/-- One attempted `fs.writeFileSync` call: target path, data (`none` models the
undefined value reaching the write when the API returned no message content),
and the open flag. -/
structure WriteOp where
  path : String
  content : Option String
  flag : WriteFlag
deriving DecidableEq, Repr

/-- Observable events of a run: console output, the API call, attempted file
writes, and process exit (which appears in the source only in the unreachable
catch of `autoTest`, utils.ts lines 239-242). -/
inductive Event where
  | log (msg : String)
  | apiCall (streaming : Bool) (req : ICompletionRequest)
  | fsWrite (op : WriteOp)
  | exit (code : Nat)
deriving DecidableEq, Repr

/-- `readFile` (utils.ts lines 8-16): `res` is the outcome of
`fs.readFileSync path "utf-8"`. The catch logs the error and returns the empty
string, so `readFile` itself never throws: its type is total. -/
def readFile (res : Except String String) : String × List Event :=
  match res with
  | Except.ok s => (s, [])
  | Except.error err => ("", [Event.log ("Error reading file: " ++ err)])

/-- `writeToFile` (utils.ts lines 18-31): `wr` is the `fs.writeFileSync`
oracle. The flag is `a` exactly when `append` is `true` (absent or false are
both falsy). Both outcomes are caught, so the function always returns
normally; it logs success in green or the error. -/
def writeToFile (wr : WriteOp → Except String Unit)
    (path : String) (content : Option String) (append : Option Bool) : List Event :=
  let op : WriteOp :=
    { path := path, content := content,
      flag := if append = some true then WriteFlag.a else WriteFlag.w }
  match wr op with
  | Except.ok _ => [Event.fsWrite op, Event.log ("Successfully wrote to file: " ++ path)]
  | Except.error err => [Event.fsWrite op, Event.log ("Error writing to file: " ++ err)]

/-- The environment oracles of one `autoTest` run: the `fs.readFileSync`
outcome for the input file, the non-streaming response message content, the
streamed chunks, the `JSON.parse` oracle, and the `fs.writeFileSync` outcome
for each attempted write. -/
structure Env where
  readResult : Except String String
  apiContent : Option String
  streamChunks : List String
  parseDelta : String → Except Unit (Option String)
  writeResult : WriteOp → Except String Unit

/-- `IAutoTestArgs` (utils.ts lines 213-222). -/
structure IAutoTestArgs where
  inputFile : String
  outputFile : String
  apiKey : String
  model : IModel
  examples : Option (List IExample)
  techs : Option (List String)
  tips : Option (List String)
  stream : Option Bool

/-- `autoTest` (utils.ts lines 224-271) as its event trace. The try/catch
around `readFile` (lines 237-242) can never take its catch branch, because
`readFile` catches internally and always returns; the `process.exit(1)` there
is dead code, so no `Event.exit` is ever emitted. `if (stream)` is true exactly
for `some true`. In streaming mode each received token is appended by the
`onToken` callback; the trace lists those writes in arrival order. -/
def autoTest (env : Env) (args : IAutoTestArgs) : List Event :=
  let rd := readFile env.readResult
  let promptArgs : iGetPromptArgs :=
    { content := rd.1, fileName := args.inputFile, techs := args.techs, tips := args.tips }
  let prompt := getPrompt promptArgs
  let exampleMessages := getExampleMessages promptArgs args.examples
  let completionRequest := getCompletionRequest args.model prompt exampleMessages
  [Event.log "Reading input file..."] ++ rd.2 ++ [Event.log "Generating tests..."] ++
    (if args.stream = some true then
      Event.apiCall true { completionRequest with stream := some true } ::
        (streamTestContent env.parseDelta env.streamChunks).1.flatMap
          (fun token => writeToFile env.writeResult args.outputFile (some token) (some true))
    else
      Event.apiCall false completionRequest ::
        writeToFile env.writeResult args.outputFile (getTestContent env.apiContent) none)

/-- The attempted file writes of a trace, in order. -/
def writesOf (tr : List Event) : List WriteOp :=
  tr.filterMap (fun e =>
    match e with
    | Event.fsWrite op => some op
    | _ => none)

/-- The tokens `streamLoop` hands to `onToken` for a given line list: the
parsed, present, non-empty delta contents, in order. -/
def tokensOf (parse : String → Except Unit (Option String)) (ls : List String) :
    List String :=
  ls.filterMap (fun l =>
    match parse (stripData l) with
    | Except.ok (some t) => if t = "" then none else some t
    | _ => none)

/-- The C2 claim's reading of the prompt tail: the prompt ends with an opening
triple-backtick fence line, the raw file content, and a closing fence line. -/
def endsWithFence (args : iGetPromptArgs) : Prop :=
  ∃ p, getPrompt args = p ++ ("```\n" ++ args.content ++ "\n```")

/-- A concrete run whose input-file read throws, used to evaluate `autoTest`
at a failing read. -/
def envReadFail : Env :=
  { readResult := Except.error "ENOENT: no such file or directory",
    apiContent := some "```\nok\n```",
    streamChunks := [],
    parseDelta := fun _ => Except.error (),
    writeResult := fun _ => Except.ok () }

/-- The arguments of the failing-read run: non-streaming, no examples. -/
def argsReadFail : IAutoTestArgs :=
  { inputFile := "missing.ts", outputFile := "out.test.ts", apiKey := "key",
    model := IModel.gpt4, examples := none, techs := none, tips := none,
    stream := none }

/-- Whether an event is a process exit. -/
def isExit : Event → Bool
  | Event.exit _ => true
  | _ => false

/-- A concrete `JSON.parse` oracle for witnesses: two well-formed payloads,
one with a token and one without, everything else a parse error. -/
def parseW : String → Except Unit (Option String) :=
  fun s =>
    if s = "J1" then Except.ok (some "hello")
    else if s = "J2" then Except.ok none
    else Except.error ()

/-- A concrete environment for witnesses. -/
def envW : Env :=
  { readResult := Except.ok "const x = 1",
    apiContent := some "t",
    streamChunks := ["data: J1\ndata: [DONE]"],
    parseDelta := parseW,
    writeResult := fun _ => Except.ok () }

/-- Witness arguments with the streaming flag set. -/
def argsStreamW : IAutoTestArgs :=
  { inputFile := "in.ts", outputFile := "out.ts", apiKey := "key",
    model := IModel.gpt35turbo, examples := none, techs := none, tips := none,
    stream := some true }

/-- Witness arguments with the streaming flag absent. -/
def argsPlainW : IAutoTestArgs :=
  { inputFile := "in.ts", outputFile := "out.ts", apiKey := "key",
    model := IModel.gpt35turbo, examples := none, techs := none, tips := none,
    stream := none }

end TestGPT

namespace TestGPT

/-- Helper: `getExampleMessages` on a cons produces the example's User and
Assistant messages followed by the rest. -/
theorem getExampleMessages_cons (pa : iGetPromptArgs) (g : IExample) (gs : List IExample) :
    getExampleMessages pa (some (g :: gs)) =
      { role := ERole.User,
        content := getPrompt { pa with content := g.code, fileName := g.fileName } } ::
      { role := ERole.Assistant, content := g.tests } ::
      getExampleMessages pa (some gs) := by
  simp [getExampleMessages]

/-- Helper: `getExampleMessages` yields two messages per example. -/
theorem getExampleMessages_length (pa : iGetPromptArgs) (es : List IExample) :
    (getExampleMessages pa (some es)).length = 2 * es.length := by
  induction es with
  | nil => rfl
  | cons g gs ih => rw [getExampleMessages_cons]; simp [ih]; omega

/-- Helper: the messages at positions `2i` and `2i + 1` come from example `i`. -/
theorem getExampleMessages_idx (pa : iGetPromptArgs) :
    ∀ (es : List IExample) (i : Nat) (g : IExample), es[i]? = some g →
      (getExampleMessages pa (some es))[2 * i]? =
        some { role := ERole.User,
               content := getPrompt { pa with content := g.code, fileName := g.fileName } } ∧
      (getExampleMessages pa (some es))[2 * i + 1]? =
        some { role := ERole.Assistant, content := g.tests }
  | [], i, g, hg => by simp at hg
  | e :: es, 0, g, hg => by
    simp at hg
    subst hg
    rw [getExampleMessages_cons]
    exact ⟨by simp, by simp⟩
  | e :: es, i + 1, g, hg => by
    have ih := getExampleMessages_idx pa es i g (by simpa using hg)
    rw [getExampleMessages_cons]
    have h2 : 2 * (i + 1) = 2 * i + 1 + 1 := by omega
    rw [h2]
    simpa using ih

/-- Helper: `writesOf` distributes over list append. -/
theorem writesOf_append (a b : List Event) : writesOf (a ++ b) = writesOf a ++ writesOf b :=
  List.filterMap_append a b _

/-- Helper: `writesOf` of the empty trace. -/
theorem writesOf_nil : writesOf [] = [] := rfl

/-- Helper: a console log contributes no write. -/
theorem writesOf_cons_log (m : String) (tr : List Event) :
    writesOf (Event.log m :: tr) = writesOf tr := rfl

/-- Helper: an API call contributes no write. -/
theorem writesOf_cons_api (b : Bool) (r : ICompletionRequest) (tr : List Event) :
    writesOf (Event.apiCall b r :: tr) = writesOf tr := rfl

/-- Helper: whatever the write oracle answers, `writeToFile` attempts exactly
one write, with flag `a` exactly when `append` is `true`. -/
theorem writesOf_writeToFile (wr : WriteOp → Except String Unit)
    (path : String) (content : Option String) (append : Option Bool) :
    writesOf (writeToFile wr path content append) =
      [{ path := path, content := content,
         flag := if append = some true then WriteFlag.a else WriteFlag.w }] := by
  unfold writeToFile
  cases hw : wr { path := path, content := content,
                  flag := if append = some true then WriteFlag.a else WriteFlag.w } <;>
    simp [writesOf, List.filterMap_cons, hw]

/-- Helper: `readFile` logs but never writes. -/
theorem writesOf_readFile_snd (r : Except String String) :
    writesOf (readFile r).2 = [] := by
  cases r <;> rfl

/-- Helper: the streamed writes are one append per token, in token order. -/
theorem writesOf_flatMap_writes (wr : WriteOp → Except String Unit) (out : String)
    (tokens : List String) :
    writesOf (tokens.flatMap (fun t => writeToFile wr out (some t) (some true))) =
      tokens.map (fun t => { path := out, content := some t, flag := WriteFlag.a }) := by
  induction tokens with
  | nil => rfl
  | cons t ts ih =>
    rw [List.flatMap_cons, writesOf_append, ih, writesOf_writeToFile]
    simp

/-- Helper: the writes of a whole `autoTest` run, by streaming mode; they do
not depend on the write oracle's answers. -/
theorem writesOf_autoTest (env : Env) (args : IAutoTestArgs) :
    writesOf (autoTest env args) =
      if args.stream = some true then
        (streamTestContent env.parseDelta env.streamChunks).1.map
          (fun t => { path := args.outputFile, content := some t, flag := WriteFlag.a })
      else
        [{ path := args.outputFile, content := getTestContent env.apiContent,
           flag := WriteFlag.w }] := by
  unfold autoTest
  by_cases hs : args.stream = some true
  · simp [hs, writesOf_append, writesOf_nil, writesOf_cons_log, writesOf_cons_api,
          writesOf_readFile_snd, writesOf_flatMap_writes]
  · simp [hs, writesOf_append, writesOf_nil, writesOf_cons_log, writesOf_cons_api,
          writesOf_readFile_snd, writesOf_writeToFile]

/-- C9: `readFile` is total over read outcomes: when the underlying read
throws, it logs the error and returns the empty string, the same value an
empty file yields, so a caller cannot tell a failed read from an empty file by
the return value alone. -/
theorem readFile_total_on_error (err : String) :
    (readFile (Except.error err)).1 = "" ∧
    (readFile (Except.error err)).1 = (readFile (Except.ok "")).1 ∧
    (readFile (Except.error err)).2 = [Event.log ("Error reading file: " ++ err)] :=
  ⟨rfl, rfl, rfl⟩

/-- C6: the request built by `getCompletionRequest` preserves call order: the
fixed system message first, the example messages unchanged at positions
`1..n`, and the user message carrying the prompt last, with nothing dropped,
duplicated or reordered (the length is exactly `n + 2`). -/
theorem getCompletionRequest_message_order (model : IModel) (prompt : String)
    (examples : List IMessage) :
    (getCompletionRequest model prompt examples).messages.length = examples.length + 2 ∧
    (getCompletionRequest model prompt examples).messages.head? = some systemMessage ∧
    (∀ i, i < examples.length →
      (getCompletionRequest model prompt examples).messages[i + 1]? = examples[i]?) ∧
    (getCompletionRequest model prompt examples).messages.getLast? =
      some { role := ERole.User, content := prompt } := by
  refine ⟨by simp [getCompletionRequest], rfl, ?_, ?_⟩
  · intro i hi
    simp [getCompletionRequest, List.getElem?_append, hi]
  · show (systemMessage :: (examples ++ [_])).getLast? = _
    rw [← List.cons_append, List.getLast?_concat]

/-- Witness for C6 at a one-example list: the example message sits unchanged
at position 1. -/
theorem getCompletionRequest_message_order_witness :
    (getCompletionRequest IModel.gpt4 "p"
        [{ role := ERole.Assistant, content := "a" }]).messages[1]? =
      some { role := ERole.Assistant, content := "a" } := by
  have h := (getCompletionRequest_message_order IModel.gpt4 "p"
      [{ role := ERole.Assistant, content := "a" }]).2.2.1 0 (by decide)
  simpa using h

/-- C2 counterexample: at content `"x"` with no techs and no tips, the prompt
does not end with a fence line, the bare content and a closing fence line —
the template indents the fence and appends a newline and two spaces, so the
prompt's last character is a space, not a backtick. -/
theorem getPrompt_fence_counterexample :
    ¬ endsWithFence { content := "x", fileName := "f.ts", techs := none, tips := none } := by
  rintro ⟨p, hp⟩
  have h1 :
      (getPrompt
        { content := "x", fileName := "f.ts", techs := none, tips := none }).data.getLast?
        = some ' ' := by decide
  rw [hp, String.data_append,
      List.getLast?_append_of_ne_nil _ (by decide)] at h1
  exact absurd h1 (by decide)

/-- C2 amended: the prompt contains the file name, and it ends with the
file-content section — a fenced code block whose fence lines are indented by
four spaces, whose enclosed text is the file content indented by four spaces,
followed by a trailing newline and two spaces. -/
theorem getPrompt_contains_fileName_and_fence (args : iGetPromptArgs) :
    (∃ a b, getPrompt args = a ++ args.fileName ++ b) ∧
    (∃ p, getPrompt args = p ++ filePart args.content) ∧
    filePart args.content =
      "Here is the file content: \n    ```\n    " ++ args.content ++ "\n    ```\n  " := by
  refine ⟨⟨"I need unit tests for a file called ",
           techsPart args.techs ++ tipsPart args.tips ++ instructionPart ++ filePart args.content,
           ?_⟩, ⟨_, rfl⟩, rfl⟩
  simp [getPrompt, String.append_assoc]

/-- C10: `getExampleMessages` returns exactly `2n` messages for `n` examples:
for each example, in order, a User message whose content is `getPrompt` on the
example's code and file name, immediately followed by an Assistant message
with the example's tests; an absent example list gives the empty list. -/
theorem getExampleMessages_pairs (promptArgs : iGetPromptArgs)
    (examples : List IExample) (i : Nat) (g : IExample)
    (hg : examples[i]? = some g) :
    getExampleMessages promptArgs none = [] ∧
    (getExampleMessages promptArgs (some examples)).length = 2 * examples.length ∧
    (getExampleMessages promptArgs (some examples))[2 * i]? =
      some { role := ERole.User,
             content := getPrompt { promptArgs with content := g.code, fileName := g.fileName } } ∧
    (getExampleMessages promptArgs (some examples))[2 * i + 1]? =
      some { role := ERole.Assistant, content := g.tests } :=
  ⟨rfl, getExampleMessages_length promptArgs examples,
   (getExampleMessages_idx promptArgs examples i g hg).1,
   (getExampleMessages_idx promptArgs examples i g hg).2⟩

/-- Witness for C10 at a concrete two-example list and index 1. -/
theorem getExampleMessages_pairs_witness :
    (getExampleMessages { content := "c", fileName := "f.ts", techs := none, tips := none }
        (some [{ fileName := "a.ts", code := "ca", tests := "ta" },
               { fileName := "b.ts", code := "cb", tests := "tb" }]))[3]? =
      some { role := ERole.Assistant, content := "tb" } := by
  have h := (getExampleMessages_pairs
      { content := "c", fileName := "f.ts", techs := none, tips := none }
      [{ fileName := "a.ts", code := "ca", tests := "ta" },
       { fileName := "b.ts", code := "cb", tests := "tb" }]
      1 { fileName := "b.ts", code := "cb", tests := "tb" } (by decide)).2.2.2
  simpa using h

end TestGPT

namespace TestGPT

/-- C5: the numbered lists `toList` embeds in the prompt are 1-indexed: entry
`i` (counting from 1) renders as the line `"i. <entry>"`, and a non-empty
technologies list makes `toList`'s text appear inside `getPrompt`'s result. -/
theorem toList_one_indexed (arr : List String) (i : Nat) (h : i < arr.length)
    (c f : String) (tips : Option (List String)) (hne : arr ≠ []) :
    toList arr = String.intercalate "\r\n" (numberedLines arr) ∧
    (numberedLines arr)[i]? = some (toString (i + 1) ++ ". " ++ arr[i]) ∧
    (∃ a b, getPrompt { content := c, fileName := f, techs := some arr, tips := tips } =
       a ++ toList arr ++ b) := by
  refine ⟨rfl, ?_, ?_⟩
  · simp [numberedLines, List.getElem?_enum, List.getElem?_eq_getElem h]
  · refine ⟨"I need unit tests for a file called " ++ f
              ++ " using the following technologies: \n      ",
            "\n    " ++ tipsPart tips ++ instructionPart ++ filePart c, ?_⟩
    simp [getPrompt, techsPart, hne, String.append_assoc]

/-- Witness for C5 at the list `["jest", "ts"]` and index 1: the second line
is numbered 2. -/
theorem toList_one_indexed_witness :
    (numberedLines ["jest", "ts"])[1]? = some "2. ts" := by
  have h := (toList_one_indexed ["jest", "ts"] 1 (by decide) "c" "f.ts" none
      (by decide)).2.1
  exact h.trans (by decide)

/-- C4: `getTestContent` blanks every line of the response content that starts
with a triple backtick and keeps all other lines unchanged and in order: its
result is the newline-join of the per-line map, that map preserves the line
count, none of its lines starts with a triple backtick, and a line of the
input survives unchanged at its position exactly when it is not a fence line. -/
theorem getTestContent_strips_fence_lines (content : String) (i : Nat) (l : String)
    (hl : (jsSplit content '\n')[i]? = some l) :
    getTestContent (some content) =
      some (String.intercalate "\n" ((jsSplit content '\n').map stripFenceLine)) ∧
    ((jsSplit content '\n').map stripFenceLine).length = (jsSplit content '\n').length ∧
    (∀ l2 ∈ (jsSplit content '\n').map stripFenceLine, jsStartsWith l2 "```" = false) ∧
    (jsStartsWith l "```" = true →
      ((jsSplit content '\n').map stripFenceLine)[i]? = some "") ∧
    (jsStartsWith l "```" = false →
      ((jsSplit content '\n').map stripFenceLine)[i]? = some l) := by
  refine ⟨rfl, by simp, ?_, ?_, ?_⟩
  · intro l2 hl2
    obtain ⟨x, hx, rfl⟩ := List.mem_map.mp hl2
    unfold stripFenceLine
    cases hx2 : jsStartsWith x "```"
    · simp [hx2]
    · simp [hx2]
      decide
  · intro hstart
    simp [List.getElem?_map, hl, stripFenceLine, hstart]
  · intro hstart
    simp [List.getElem?_map, hl, stripFenceLine, hstart]

/-- Witness for C4 at content `"a\n```ts\nb"`: the fence line at position 1 is
blanked, its neighbours survive. -/
theorem getTestContent_strips_fence_lines_witness :
    ((jsSplit "a\n```ts\nb" '\n').map stripFenceLine)[1]? = some "" := by
  have h := (getTestContent_strips_fence_lines "a\n```ts\nb" 1 "```ts"
      (by decide)).2.2.2.1 (by decide)
  exact h

/-- C3: `streamTestContent` stops exactly at the terminator: when the kept
`data:` lines are some prefix, then a line whose payload is `"[DONE]"`, and
the prefix lines all parse, the loop returns at the terminator with outcome
`done`, having passed to `onToken` exactly the non-empty delta tokens of the
lines strictly before the terminator, in order, and none at or after it. -/
theorem streamTestContent_stops_at_done
    (parse : String → Except Unit (Option String)) (chunks : List String)
    (pre post : List String) (doneLine : String)
    (hsplit : chunks.flatMap dataLines = pre ++ doneLine :: post)
    (hdone : stripData doneLine = "[DONE]")
    (hpre : ∀ l ∈ pre, stripData l ≠ "[DONE]" ∧ (parse (stripData l)).isOk = true) :
    streamTestContent parse chunks = (tokensOf parse pre, StreamOutcome.done) := by
  unfold streamTestContent
  rw [hsplit]
  clear hsplit
  revert hpre
  induction pre with
  | nil =>
    intro _
    simp [streamLoop, hdone, tokensOf]
  | cons l ls ih =>
    intro hpre
    obtain ⟨hne, hok⟩ := hpre l (by simp)
    have ihh := ih (fun x hx => hpre x (List.mem_cons_of_mem _ hx))
    rw [List.cons_append]
    simp only [streamLoop]
    rw [if_neg hne]
    cases hp : parse (stripData l) with
    | error e => rw [hp] at hok; exact Bool.noConfusion hok
    | ok token =>
      cases token with
      | none => simpa [tokensOf, List.filterMap_cons, hp] using ihh
      | some t =>
        by_cases ht : t = ""
        · subst ht
          simpa [tokensOf, List.filterMap_cons, hp] using ihh
        · simp [hp, ht, tokensOf, List.filterMap_cons, ihh]

/-- Witness for C3 at two concrete chunks: one token before the terminator is
emitted, the token after the terminator is not. -/
theorem streamTestContent_stops_at_done_witness :
    streamTestContent parseW ["data: J1\ndata: J2", "data: [DONE]\ndata: J1"] =
      (["hello"], StreamOutcome.done) := by
  have h := streamTestContent_stops_at_done parseW
      ["data: J1\ndata: J2", "data: [DONE]\ndata: J1"]
      ["data: J1", "data: J2"] ["data: J1"] "data: [DONE]"
      (by decide) (by decide)
      (by intro l hl; fin_cases hl <;> exact ⟨by decide, by decide⟩)
  exact h.trans (by decide)

end TestGPT

namespace TestGPT

/-- C7: `autoTest` writes the output file fresh (flag `w`, one write with the
whole processed response) when the streaming flag is false or absent, and
appends incrementally (flag `a`, one write per received token, in arrival
order) when the streaming flag is true. -/
theorem autoTest_write_flags (env : Env) (args : IAutoTestArgs) :
    (args.stream = some true →
      writesOf (autoTest env args) =
        (streamTestContent env.parseDelta env.streamChunks).1.map
          (fun t => { path := args.outputFile, content := some t, flag := WriteFlag.a })) ∧
    (args.stream ≠ some true →
      writesOf (autoTest env args) =
        [{ path := args.outputFile, content := getTestContent env.apiContent,
           flag := WriteFlag.w }]) := by
  constructor
  · intro hs; rw [writesOf_autoTest, if_pos hs]
  · intro hs; rw [writesOf_autoTest, if_neg hs]

/-- Witness for C7: a concrete streaming run appends its one token with flag
`a`; the same run without the flag performs one fresh write with flag `w`. -/
theorem autoTest_write_flags_witness :
    writesOf (autoTest envW argsStreamW) =
      [{ path := "out.ts", content := some "hello", flag := WriteFlag.a }] ∧
    writesOf (autoTest envW argsPlainW) =
      [{ path := "out.ts", content := getTestContent (some "t"), flag := WriteFlag.w }] := by
  constructor
  · have h := (autoTest_write_flags envW argsStreamW).1 rfl
    exact h.trans (by decide)
  · have h := (autoTest_write_flags envW argsPlainW).2 (by decide)
    exact h.trans (by decide)

/-- C8: when the underlying file write throws, `writeToFile` logs the error
and swallows it — it still returns a normal trace ending in the error log —
and `autoTest` is unaffected: its attempted writes are the same whatever the
write oracle answers. -/
theorem writeToFile_swallows_write_errors (env : Env) (args : IAutoTestArgs)
    (wr wr2 : WriteOp → Except String Unit)
    (path : String) (content : Option String) (append : Option Bool) (err : String)
    (hthrow : wr { path := path, content := content,
                   flag := if append = some true then WriteFlag.a else WriteFlag.w } =
              Except.error err) :
    writeToFile wr path content append =
      [Event.fsWrite { path := path, content := content,
                       flag := if append = some true then WriteFlag.a else WriteFlag.w },
       Event.log ("Error writing to file: " ++ err)] ∧
    writesOf (autoTest { env with writeResult := wr } args) =
      writesOf (autoTest { env with writeResult := wr2 } args) := by
  constructor
  · simp [writeToFile, hthrow]
  · rw [writesOf_autoTest, writesOf_autoTest]

/-- Witness for C8: a write oracle that always throws still yields a normal
trace with the error logged. -/
theorem writeToFile_swallows_write_errors_witness :
    writeToFile (fun _ => Except.error "EACCES") "out.ts" (some "x") none =
      [Event.fsWrite { path := "out.ts", content := some "x", flag := WriteFlag.w },
       Event.log ("Error writing to file: " ++ "EACCES")] := by
  have h := (writeToFile_swallows_write_errors envW argsPlainW
      (fun _ => Except.error "EACCES") (fun _ => Except.ok ())
      "out.ts" (some "x") none "EACCES" rfl).1
  exact h.trans (by decide)

/-- C1 (code evaluated at a failing read): when the input-file read throws,
`autoTest` logs the read error but does not exit — no exit event occurs — and
it performs the further steps the claim excludes: it calls the API with the
prompt built from the empty content and attempts the output write. The
`process.exit(1)` catch in the source is unreachable because `readFile`
swallows the throw. -/
theorem autoTest_continues_after_read_failure :
    Event.log ("Error reading file: " ++ "ENOENT: no such file or directory")
        ∈ autoTest envReadFail argsReadFail ∧
    Event.apiCall false (getCompletionRequest IModel.gpt4
        (getPrompt { content := "", fileName := "missing.ts", techs := none, tips := none }) [])
        ∈ autoTest envReadFail argsReadFail ∧
    Event.fsWrite { path := "out.test.ts", content := getTestContent (some "```\nok\n```"),
                    flag := WriteFlag.w } ∈ autoTest envReadFail argsReadFail ∧
    ∀ e ∈ autoTest envReadFail argsReadFail, isExit e = false := by
  set_option maxRecDepth 10000 in decide

end TestGPT
